import Mathlib

/-!
Verification development for the `todo-hitl` conversational-agent repository.

The Python sources are shallowly embedded here:
- text values are `List Char` (Python `str`), so that `str.strip`, `str.lower`,
  `str.upper`, `str.replace` and `in` checks become provable list functions;
- the LangGraph workflow of `src/agent/agent-custom.py` (`create_agent_graph`)
  is a fuel-indexed run function over an explicit `GState`, with the remote
  LLM calls supplied as oracles and `interrupt_before=["tools"]` modelled as
  returning the suspended state (the suspension is observable as the last
  message carrying tool calls);
- the per-turn bodies of the two `run_agent` session drivers
  (`src/agent/agent-custom.py` and `src/agent/ai-agent.py`) are pure turn
  functions from (history, input line, approval line) to an outcome carrying
  the updated conversation history;
- fallible remote calls return `Except`; an uncaught Python exception is an
  `Except.error` value.
-/

/-- Convert a Lean string literal to the `List Char` text representation. -/
def str (s : String) : List Char := s.data

/-- ASCII whitespace recognised by Python's `str.strip()` (the tickers,
commands and approval words in this repository are ASCII). -/
def isWS (c : Char) : Bool :=
  c == ' ' || c == '\t' || c == '\n' || c == '\r' || c == '\x0b' || c == '\x0c'

/-- Drop trailing whitespace characters (the right half of `str.strip()`). -/
def dropTrailing (l : List Char) : List Char :=
  match l with
  | [] => []
  | c :: rest =>
    match dropTrailing rest with
    | [] => if isWS c then [] else [c]
    | r => c :: r

/-- Python `str.strip()`: remove leading and trailing whitespace. -/
def stripL (l : List Char) : List Char := dropTrailing (l.dropWhile isWS)

/-- Python `str.lower()` on one character (ASCII range). -/
def asciiLower (c : Char) : Char :=
  if 65 ≤ c.toNat ∧ c.toNat ≤ 90 then Char.ofNat (c.toNat + 32) else c

/-- Python `str.upper()` on one character (ASCII range). -/
def asciiUpper (c : Char) : Char :=
  if 97 ≤ c.toNat ∧ c.toNat ≤ 122 then Char.ofNat (c.toNat - 32) else c

/-- Python `str.lower()`. -/
def lowerL (l : List Char) : List Char := l.map asciiLower

/-- Python `str.upper()`. -/
def upperL (l : List Char) : List Char := l.map asciiUpper

/-- Python `s.replace(⟨a,a⟩, "")` for a two-character pattern of one repeated
character (the patterns removed in `generate_plan` are `**` and `##`):
left-to-right, non-overlapping removal. -/
def remove2 (a : Char) : List Char → List Char
  | [] => []
  | [c] => [c]
  | c :: d :: rest =>
    if c == a && d == a then remove2 a rest
    else c :: remove2 a (d :: rest)

/-- Python `s.replace(⟨a,a,a⟩, "")` for a three-character repeated pattern
(`###` in `generate_plan`): left-to-right, non-overlapping removal. -/
def remove3 (a : Char) : List Char → List Char
  | [] => []
  | [c] => [c]
  | [c, d] => [c, d]
  | c :: d :: e :: rest =>
    if c == a && d == a && e == a then remove3 a rest
    else c :: remove3 a (d :: e :: rest)

/-- Whether two adjacent copies of `a` occur somewhere in the list
(i.e. the two-character pattern `⟨a,a⟩` occurs as a substring). -/
def has2 (a : Char) : List Char → Bool
  | [] => false
  | [_] => false
  | c :: d :: rest => (c == a && d == a) || has2 a (d :: rest)

/-- Whether three adjacent copies of `a` occur somewhere in the list. -/
def has3 (a : Char) : List Char → Bool
  | [] => false
  | [_] => false
  | [_, _] => false
  | c :: d :: e :: rest => (c == a && d == a && e == a) || has3 a (d :: e :: rest)

/-- src/agent/agent-custom.py line 252: the post-generation cleanup of the
planner output, `response.content.replace('**','').replace('###','')
.replace('##','').strip()`. -/
def cleanPlan (s : List Char) : List Char :=
  stripL (remove2 '#' (remove3 '#' (remove2 '*' s)))

/-- A tool invocation request emitted by the model: `tool_call['name']`,
`tool_call['args']`, and the originating call id used to tag the
ToolMessage produced for it. -/
structure ToolCall where
  name : List Char
  args : List (List Char × List Char)
  callId : Nat
deriving DecidableEq

/-- LangChain message kinds used by both agents: SystemMessage, HumanMessage,
AIMessage (with its `tool_calls` list) and ToolMessage (with its
`tool_call_id`). -/
inductive Msg where
  | system (content : List Char)
  | human (content : List Char)
  | ai (content : List Char) (tool_calls : List ToolCall)
  | tool (content : List Char) (tool_call_id : Nat)
deriving DecidableEq

/-- The response of one chat-model call: content plus requested tool calls. -/
structure AIResp where
  content : List Char
  tool_calls : List ToolCall
deriving DecidableEq

/-- The `tool_calls` of the last message, empty when the history is empty,
the last message is not an AI message, or the attribute holds no calls —
exactly the condition `hasattr(last_message, 'tool_calls') and
last_message.tool_calls` tests. -/
def lastToolCalls (messages : List Msg) : List ToolCall :=
  match messages.getLast? with
  | some (.ai _ tcs) => tcs
  | _ => []

/-- Boolean form of `hasattr(last_message, 'tool_calls') and
last_message.tool_calls`. -/
def lastHasToolCalls (messages : List Msg) : Bool :=
  !(lastToolCalls messages).isEmpty

/-- The `AgentState` of src/agent/agent-custom.py lines 159-162: the message
sequence plus the optional plan text. -/
structure GState where
  messages : List Msg
  todo_list : Option (List Char)
deriving DecidableEq

/-- src/agent/agent-custom.py lines 181-253 (`generate_plan`), the tool-call
description lines `f"- ⟨name⟩ with ⟨args⟩"` joined by newlines (the dict
display of the argument mapping is rendered as `k=v` pairs; it only
parametrises the external planning-model call). -/
def describeToolCall (tc : ToolCall) : List Char :=
  str "- " ++ tc.name ++ str " with " ++
    tc.args.foldr (fun p acc => p.1 ++ str "=" ++ p.2 ++ str " " ++ acc) []

/-- Join description lines with newlines (`"\n".join(tool_descriptions)`). -/
def joinLines : List (List Char) → List Char
  | [] => []
  | [x] => x
  | x :: xs => x ++ ['\n'] ++ joinLines xs

/-- src/agent/agent-custom.py lines 202-206: scan `reversed(messages[:-1])`
for the most recent HumanMessage and take its content. -/
def findUserQuery (messages : List Msg) : Option (List Char) :=
  messages.dropLast.reverse.findSome? fun m =>
    match m with
    | .human c => some c
    | _ => none

/-- src/agent/agent-custom.py lines 181-253, `generate_plan`: if the last
message carries no tool calls the plan is absent (`todo_list = None`);
otherwise the planning model (an oracle `plannerLLM` taking the dynamic parts
of the fixed prompt: the tools text and the user query) is invoked and its
output is cleaned by `cleanPlan`. -/
def generate_plan (plannerLLM : List Char → Option (List Char) → List Char)
    (messages : List Msg) : Option (List Char) :=
  match lastToolCalls messages with
  | [] => none
  | tcs =>
    let tools_text := joinLines (tcs.map describeToolCall)
    let user_query := findUserQuery messages
    some (cleanPlan (plannerLLM tools_text user_query))

/-- src/agent/agent-custom.py lines 255-265, `route_after_agent`: route to
the planner exactly when the last message carries tool calls. -/
def route_after_agent (messages : List Msg) : List Char :=
  if lastHasToolCalls messages then str "planner" else str "end"

/-- One run of the compiled workflow of src/agent/agent-custom.py
(`create_agent_graph`) starting at the `agent` node: invoke the model
(oracle `llm`; `Except.error` is a raised exception, e.g. a model-invocation
failure or the graph recursion limit), append the AI message, then follow
`route_after_agent`: with tool calls, run the planner and suspend before the
`tools` node (`interrupt_before=["tools"]`), returning the suspended state;
without tool calls, reach END. Because the graph suspends before every
`tools` execution, one invocation segment contains exactly one agent step. -/
def runFromAgent (llm : List Msg → Except (List Char) AIResp)
    (plannerLLM : List Char → Option (List Char) → List Char)
    (s : GState) : Except (List Char) GState :=
  match llm s.messages with
  | .error e => .error e
  | .ok resp =>
    let s1 : GState := ⟨s.messages ++ [Msg.ai resp.content resp.tool_calls], s.todo_list⟩
    -- route_after_agent: "planner" when the new message has tool calls
    if lastHasToolCalls s1.messages then
      -- planner node stores the plan, then the graph suspends before tools
      .ok ⟨s1.messages, generate_plan plannerLLM s1.messages⟩
    else
      .ok s1

/-- The ToolMessages the `tools` node (LangGraph `ToolNode`) produces for the
pending calls of the last AI message, in request order, each tagged with the
originating call id; `toolExec` is the (total, string-returning) execution
function built by `create_langchain_tool_from_mcp`. -/
def toolResults (toolExec : ToolCall → List Char) (messages : List Msg) : List Msg :=
  (lastToolCalls messages).map fun c => Msg.tool (toolExec c) c.callId

/-- Resuming the suspended graph (`agent_graph.ainvoke(None, config)`): the
`tools` node executes the pending calls and appends their ToolMessages, then
the `tools → agent` edge re-enters the agent node. -/
def resumeFromTools (llm : List Msg → Except (List Char) AIResp)
    (plannerLLM : List Char → Option (List Char) → List Char)
    (toolExec : ToolCall → List Char)
    (s : GState) : Except (List Char) GState :=
  runFromAgent llm plannerLLM
    ⟨s.messages ++ toolResults toolExec s.messages, s.todo_list⟩

/-- The history cap of src/agent/agent-custom.py lines 369-370 and 399-400:
`if len(h) > 6: h = h[-6:]`. -/
def trunc6 (l : List Msg) : List Msg :=
  if 6 < l.length then l.drop (l.length - 6) else l

/-- The exit keywords of both session drivers. -/
def exitWords : List (List Char) := [str "exit", str "quit"]

/-- The affirmative approval responses of src/agent/agent-custom.py line 394. -/
def yesWords : List (List Char) := [str "yes", str "y"]

/-- The synthetic acknowledgment appended on rejection
(src/agent/agent-custom.py lines 410-412). -/
def ackText : List Char := str "I understand. How else can I help you?"

namespace AgentCustom

/-- Outcome of one iteration of the `while True` loop of
src/agent/agent-custom.py `run_agent`, carrying the conversation history as
it stands when the iteration ends. -/
inductive TurnOutcome where
  | exited (history : List Msg)
  | skipped (history : List Msg)
  | completed (history : List Msg)
  | errored (history : List Msg)
deriving DecidableEq

/-- The conversation history an outcome carries. -/
def outHistory : TurnOutcome → List Msg
  | .exited h => h
  | .skipped h => h
  | .completed h => h
  | .errored h => h

/-- One iteration of the session loop of src/agent/agent-custom.py
`run_agent`, lines 357-429: strip the input line; exit keywords terminate;
an empty stripped line is skipped; otherwise the Human message is appended,
the history is truncated to the last 6 messages, and the graph is run. If it
suspends with pending tool calls, the stripped lower-cased approval line is
compared against yes/y: on approval the graph is resumed and the resulting
messages (truncated) become the history; on rejection the synthetic AI
acknowledgment is appended. A direct reply replaces the history with the
result messages (truncated). Any exception inside the `try` pops the last
history element and continues. -/
def runTurn (llm : List Msg → Except (List Char) AIResp)
    (plannerLLM : List Char → Option (List Char) → List Char)
    (toolExec : ToolCall → List Char)
    (history : List Msg)
    (input approvalInput : List Char) : TurnOutcome :=
  let user_input := stripL input
  if lowerL user_input ∈ exitWords then .exited history
  else if user_input = [] then .skipped history
  else
    let hist := trunc6 (history ++ [Msg.human user_input])
    match runFromAgent llm plannerLLM ⟨hist, none⟩ with
    | .error _ => .errored hist.dropLast
    | .ok s =>
      if lastHasToolCalls s.messages then
        if lowerL (stripL approvalInput) ∈ yesWords then
          match resumeFromTools llm plannerLLM toolExec s with
          | .error _ => .errored hist.dropLast
          | .ok s2 => .completed (trunc6 s2.messages)
        else .completed (hist ++ [Msg.ai ackText []])
      else .completed (trunc6 s.messages)

end AgentCustom

namespace AiAgent

/-- Outcome of one iteration of the `while True` loop of
src/agent/ai-agent.py `run_agent`; `crashed` is an exception escaping the
loop body (no handler inside the loop), which terminates the session loop. -/
inductive TurnOutcome where
  | exited (history : List Msg)
  | skipped (history : List Msg)
  | completed (history : List Msg)
  | crashed (history : List Msg)
deriving DecidableEq

/-- The conversation history an outcome carries. -/
def outHistory : TurnOutcome → List Msg
  | .exited h => h
  | .skipped h => h
  | .completed h => h
  | .crashed h => h

/-- One iteration of the session loop of src/agent/ai-agent.py `run_agent`,
lines 290-322: strip the input; exit keywords terminate; empty input is
skipped; otherwise the Human message is appended (no truncation exists in
this variant) and the graph is invoked. On exception the invocation is
retried once, outside any handler: a second failure escapes the loop. The
final message of a successful response is appended to the history. `invoke`
is indexed by the attempt number. -/
def runTurn (invoke : Nat → Except (List Char) (List Msg))
    (history : List Msg) (input : List Char) : TurnOutcome :=
  let user_input := stripL input
  if lowerL user_input ∈ exitWords then .exited history
  else if user_input = [] then .skipped history
  else
    let hist := history ++ [Msg.human user_input]
    match invoke 0 with
    | .ok msgs =>
      match msgs.getLast? with
      | some m => .completed (hist ++ [m])
      | none => .crashed hist
    | .error _ =>
      match invoke 1 with
      | .ok msgs =>
        match msgs.getLast? with
        | some m => .completed (hist ++ [m])
        | none => .crashed hist
      | .error _ => .crashed hist

end AiAgent

/-- The outcome of `mcp_client.session.call_tool(tool_name, kwargs)`:
either the `content` item texts of the result, or a raised exception. -/
inductive CallOutcome where
  | success (content : List (List Char))
  | raised (message : List Char)
deriving DecidableEq

/-- src/agent/agent-custom.py line 139 (and src/agent/ai-agent.py line 150):
`{k: v for k, v in kwargs.items() if k != '_dummy' and v is not None}`. -/
def filterArgs (args : List (List Char × Option (List Char))) :
    List (List Char × List Char) :=
  args.filterMap fun p =>
    match p.2 with
    | none => none
    | some v => if p.1 = str "_dummy" then none else some (p.1, v)

/-- src/agent/agent-custom.py lines 135-148 and src/agent/ai-agent.py lines
145-159, `tool_func`: the execution function of a built tool invocable.
`sessionOk` is whether `mcp_client.session` is initialized (the `assert`
before the `try` raises when it is not); `callTool` maps the filtered
argument map to the call outcome. Inside the `try`, a raised exception
becomes the textual payload, empty content the sentinel, and otherwise the
first content item's text is returned. -/
def tool_func (sessionOk : Bool)
    (callTool : List (List Char × List Char) → CallOutcome)
    (args : List (List Char × Option (List Char))) :
    Except (List Char) (List Char) :=
  if sessionOk = false then .error (str "MCP session is not initialized")
  else .ok (match callTool (filterArgs args) with
    | .raised m => str "Error executing tool: " ++ m
    | .success [] => str "No response from tool."
    | .success (t :: _) => t)

/-- The first CSV data row of the Stooq response, as read by
`csv.DictReader` in src/server/backend/data_store.py lines 82-83. -/
structure StockRow where
  openP : List Char
  high : List Char
  low : List Char
  close : List Char
  volume : List Char
deriving DecidableEq

/-- The value returned by `get_stock_price`: the error dict or the price
dict. -/
inductive StockResp where
  | err (message : List Char)
  | priceData (symbol openP high low close volume : List Char)
deriving DecidableEq

/-- src/server/backend/data_store.py lines 73-75: `symbol = symbol.lower()`,
then `if "." not in symbol: symbol = f"⟨symbol⟩.us"`. -/
def normalizeSymbol (symbol : List Char) : List Char :=
  let t := lowerL symbol
  if '.' ∈ t then t else t ++ str ".us"

/-- src/server/backend/data_store.py lines 68-95, `get_stock_price`: the
symbol is normalized, the CSV row for it is fetched (`fetch` models the HTTP
request plus `next(reader, None)`), and `if not data or data["Close"] ==
"N/D"` yields the error dict; otherwise the price dict is returned with the
upper-cased normalized symbol. -/
def get_stock_price (fetch : List Char → Option StockRow)
    (symbol : List Char) : StockResp :=
  let sym := normalizeSymbol symbol
  match fetch sym with
  | none => .err (str "No data found for symbol " ++ sym)
  | some row =>
    if row.close = str "N/D" then .err (str "No data found for symbol " ++ sym)
    else .priceData (upperL sym) row.openP row.high row.low row.close row.volume

/-! Concrete scenario values used to instantiate the theorems below. -/

/-- Whether a message is a ToolMessage. -/
def isToolMsg : Msg → Bool
  | .tool _ _ => true
  | _ => false

/-- Number of ToolMessages in a history. -/
def countToolMsgs (messages : List Msg) : Nat :=
  (messages.filter isToolMsg).length

/-- A concrete weather tool invocation request. -/
def wToolCall : ToolCall := ⟨str "get_weather", [(str "city", str "London")], 1⟩

/-- A concrete second-round search invocation request. -/
def wToolCall2 : ToolCall := ⟨str "web_search", [(str "query", str "London weather")], 2⟩

/-- A model oracle that requests the weather tool, then answers directly
once a tool result is visible. -/
def wLlm : List Msg → Except (List Char) AIResp := fun msgs =>
  if countToolMsgs msgs == 0 then .ok ⟨[], [wToolCall]⟩
  else .ok ⟨str "It is sunny in London", []⟩

/-- A model oracle that requests a tool on the first decide and another tool
on the re-decide after the first result. -/
def wLlm2 : List Msg → Except (List Char) AIResp := fun msgs =>
  if countToolMsgs msgs == 0 then .ok ⟨[], [wToolCall]⟩
  else .ok ⟨[], [wToolCall2]⟩

/-- A model oracle whose remote call always fails. -/
def failLlm : List Msg → Except (List Char) AIResp := fun _ =>
  .error (str "model timeout")

/-- A planner oracle returning a fixed compliant plan line. -/
def wPlanner : List Char → Option (List Char) → List Char := fun _ _ =>
  str "1. Fetch weather data for London using the get_weather MCP tool"

/-- A planner oracle returning adversarial markdown that the cleanup
stitches into a new emphasis marker. -/
def evilPlanner : List Char → Option (List Char) → List Char := fun _ _ =>
  str "*##*"

/-- A tool executor returning a fixed result text. -/
def wTool : ToolCall → List Char := fun _ => str "20 C"

/-- A five-message starting history (System message at the front). -/
def h5 : List Msg :=
  [Msg.system (str "You are a helpful AI assistant"),
   Msg.human (str "h1"), Msg.ai (str "a1") [],
   Msg.human (str "h2"), Msg.ai (str "a2") []]

/-- A graph invocation oracle (ai-agent variant) that fails on every
attempt. -/
def invokeFail : Nat → Except (List Char) (List Msg) := fun _ =>
  .error (str "boom")

/-- A graph invocation oracle (ai-agent variant) that fails once and then
succeeds. -/
def invokeRetryOk : Nat → Except (List Char) (List Msg) := fun n =>
  if n == 0 then .error (str "boom")
  else .ok [Msg.human (str "hi"), Msg.ai (str "recovered") []]

/-- A `call_tool` oracle that raises. -/
def raisingCall : List (List Char × List Char) → CallOutcome := fun _ =>
  .raised (str "boom")

/-- A concrete argument map containing the placeholder parameter. -/
def dummyArgs : List (List Char × Option (List Char)) :=
  [(str "_dummy", some (str "x")), (str "city", some (str "London"))]

/-- A concrete Stooq CSV row for a quoted symbol. -/
def row0 : StockRow :=
  ⟨str "255.1", str "258.0", str "253.0", str "257.2", str "1000"⟩

/-- A fetch oracle holding data for `aapl.us` only. -/
def fetch0 : List Char → Option StockRow := fun s =>
  if s = str "aapl.us" then some row0 else none

/-- A fetch oracle whose close-price field holds the `N/D` sentinel. -/
def fetchND : List Char → Option StockRow := fun s =>
  if s = str "msft.us" then some ⟨str "N/D", str "N/D", str "N/D", str "N/D", str "N/D"⟩
  else none

/-! General lemmas about the embedded text and graph operations. -/

/-- `Char.ofNat` round-trips on valid scalar values below the surrogate
range. -/
theorem charOfNat_toNat (m : Nat) (h : m < 55296) : (Char.ofNat m).toNat = m := by
  unfold Char.ofNat
  rw [dif_pos (Or.inl h : Nat.isValidChar m)]
  simp [Char.ofNatAux, Char.toNat, UInt32.toNat, BitVec.toNat_ofNatLt]

/-- Lower-casing a character yields a dot exactly when it is a dot. -/
theorem asciiLower_eq_dot (c : Char) : asciiLower c = '.' ↔ c = '.' := by
  unfold asciiLower
  split
  · rename_i h
    constructor
    · intro he
      have h1 : (Char.ofNat (c.toNat + 32)).toNat = c.toNat + 32 :=
        charOfNat_toNat _ (by omega)
      have h2 : ('.' : Char).toNat = 46 := by decide
      rw [he, h2] at h1
      omega
    · intro he
      have : c.toNat = 46 := by rw [he]; decide
      omega
  · exact Iff.rfl

/-- Lower-casing a text neither removes nor introduces a dot. -/
theorem mem_dot_lowerL (s : List Char) : '.' ∈ lowerL s ↔ '.' ∈ s := by
  unfold lowerL
  rw [List.mem_map]
  constructor
  · rintro ⟨c, hc, he⟩
    rw [asciiLower_eq_dot] at he
    exact he ▸ hc
  · intro h
    exact ⟨'.', h, by decide⟩

/-- The history cap never yields more than 6 messages. -/
theorem trunc6_length_le (l : List Msg) : (trunc6 l).length ≤ 6 := by
  unfold trunc6
  split
  · rename_i h
    rw [List.length_drop]
    omega
  · omega

/-- Appending an AI message makes its calls the pending ones. -/
theorem lastToolCalls_concat (l : List Msg) (c : List Char) (tcs : List ToolCall) :
    lastToolCalls (l ++ [Msg.ai c tcs]) = tcs := by
  unfold lastToolCalls
  rw [List.getLast?_concat]

/-- Appending an AI message: the pending-call check sees its calls. -/
theorem lastHasToolCalls_concat (l : List Msg) (c : List Char) (tcs : List ToolCall) :
    lastHasToolCalls (l ++ [Msg.ai c tcs]) = !tcs.isEmpty := by
  unfold lastHasToolCalls
  rw [lastToolCalls_concat]

/-- A graph segment that ends without pending tool calls ends at END with a
direct AI reply (no tool invocation requests) as the last message. -/
theorem runFromAgent_done_last (llm : List Msg → Except (List Char) AIResp)
    (plannerLLM : List Char → Option (List Char) → List Char)
    (s s' : GState)
    (h : runFromAgent llm plannerLLM s = .ok s')
    (hno : lastHasToolCalls s'.messages = false) :
    ∃ c, s'.messages.getLast? = some (Msg.ai c []) := by
  unfold runFromAgent at h
  cases hllm : llm s.messages with
  | error e => rw [hllm] at h; exact absurd h (by simp)
  | ok resp =>
    rw [hllm] at h
    simp only at h
    split at h
    · rename_i htc
      cases h
      simp only at hno
      rw [hno] at htc
      exact absurd htc (by simp)
    · rename_i htc
      cases h
      refine ⟨resp.content, ?_⟩
      simp only at hno ⊢
      rw [lastHasToolCalls_concat] at hno
      have : resp.tool_calls = [] := by
        cases hh : resp.tool_calls with
        | nil => rfl
        | cons x t => rw [hh] at hno; exact absurd hno (by simp)
      rw [this, List.getLast?_concat]

/-- Removal does not fire at the front when the head differs from the
pattern character. -/
theorem remove2_cons_ne (a y : Char) (rest : List Char) (h : (y == a) = false) :
    remove2 a (y :: rest) = y :: remove2 a rest := by
  cases rest with
  | nil => rfl
  | cons z r =>
    rw [remove2, if_neg]
    rw [h]
    simp

/-- The adjacency check ignores a head that differs from the pattern
character. -/
theorem has2_cons_ne (a c : Char) (l : List Char) (h : (c == a) = false) :
    has2 a (c :: l) = has2 a l := by
  cases l with
  | nil => rfl
  | cons x t =>
    rw [has2, h]
    simp

/-- The adjacency check on a tail of a pair-free list. -/
theorem has2_tail (a c : Char) (l : List Char) (h : has2 a (c :: l) = false) :
    has2 a l = false := by
  cases l with
  | nil => rfl
  | cons x t =>
    rw [has2] at h
    simp only [Bool.or_eq_false_iff] at h
    exact h.2

/-- Non-overlapping removal of a doubled character leaves no doubled
occurrence of it: every kept copy of the character is followed by a kept
non-matching character. -/
theorem has2_remove2 (a : Char) : ∀ l, has2 a (remove2 a l) = false
  | [] => rfl
  | [_] => rfl
  | c :: d :: rest => by
    by_cases h : (c == a && d == a) = true
    · rw [remove2, if_pos h]
      exact has2_remove2 a rest
    · have h' : (c == a && d == a) = false := by
        cases hcd : (c == a && d == a) with
        | false => rfl
        | true => exact absurd hcd h
      rw [remove2, if_neg h]
      by_cases hc : (c == a) = true
      · have hd : (d == a) = false := by
          cases hda : (d == a) with
          | false => rfl
          | true => exact absurd (by rw [hc, hda] at h'; exact h') (by simp)
        rw [remove2_cons_ne a d rest hd, has2, hd]
        simp only [Bool.and_false, Bool.false_or]
        rw [← remove2_cons_ne a d rest hd]
        exact has2_remove2 a (d :: rest)
      · have hc' : (c == a) = false := by
          cases hcc : (c == a) with
          | false => rfl
          | true => exact absurd hcc hc
        rw [has2_cons_ne a c _ hc']
        exact has2_remove2 a (d :: rest)

/-- Dropping a prefix preserves freedom from doubled characters. -/
theorem has2_dropWhile (a : Char) (p : Char → Bool) :
    ∀ l, has2 a l = false → has2 a (l.dropWhile p) = false
  | [], _ => rfl
  | c :: t, h => by
    rw [List.dropWhile_cons]
    split
    · exact has2_dropWhile a p t (has2_tail a c t h)
    · exact h

/-- When trailing-whitespace removal keeps anything of a nonempty list, it
keeps the head. -/
theorem dropTrailing_shape (c : Char) (rest : List Char) :
    dropTrailing (c :: rest) = [] ∨
      ∃ t, dropTrailing (c :: rest) = c :: t := by
  rw [dropTrailing]
  cases dropTrailing rest with
  | nil =>
    by_cases hw : isWS c = true
    · rw [if_pos hw]
      exact Or.inl rfl
    · rw [if_neg hw]
      exact Or.inr ⟨[], rfl⟩
  | cons x t => exact Or.inr ⟨x :: t, rfl⟩

/-- Dropping trailing whitespace preserves freedom from doubled
characters. -/
theorem has2_dropTrailing (a : Char) :
    ∀ l, has2 a l = false → has2 a (dropTrailing l) = false
  | [], _ => rfl
  | c :: rest, h => by
    have ih : has2 a (dropTrailing rest) = false :=
      has2_dropTrailing a rest (has2_tail a c rest h)
    rw [dropTrailing]
    cases hdt : dropTrailing rest with
    | nil =>
      by_cases hw : isWS c = true
      · rw [if_pos hw]
        rfl
      · rw [if_neg hw]
        rfl
    | cons x t =>
      rw [hdt] at ih
      cases rest with
      | nil => exact absurd hdt (by rw [dropTrailing]; simp)
      | cons y r =>
        have hy : x = y := by
          rcases dropTrailing_shape y r with hsh | ⟨t', hsh⟩
          · rw [hsh] at hdt; exact absurd hdt (by simp)
          · rw [hsh] at hdt
            injection hdt with h1 _
            exact h1.symm
        by_cases hc : (c == a) = true
        · have hya : (y == a) = false := by
            rw [has2] at h
            simp only [Bool.or_eq_false_iff] at h
            have := h.1
            rw [hc] at this
            simpa using this
          rw [has2]
          rw [hy, hya]
          simp only [Bool.and_false, Bool.false_or]
          rw [← hy]
          exact ih
        · have hc' : (c == a) = false := by
            cases hcc : (c == a) with
            | false => rfl
            | true => exact absurd hcc hc
          rw [has2_cons_ne a c _ hc']
          exact ih

/-- Freedom from a doubled character transfers through `str.strip()`. -/
theorem has2_stripL (a : Char) (l : List Char) (h : has2 a l = false) :
    has2 a (stripL l) = false :=
  has2_dropTrailing a _ (has2_dropWhile a isWS l h)

/-- A triple of a character contains a double of it. -/
theorem has3_eq_false_of_has2 (a : Char) :
    ∀ l, has2 a l = false → has3 a l = false
  | [], _ => rfl
  | [_], _ => rfl
  | [_, _], _ => rfl
  | c :: d :: e :: rest, h => by
    rw [has3]
    have h1 : (c == a && d == a) = false := by
      rw [has2] at h
      simp only [Bool.or_eq_false_iff] at h
      exact h.1
    have h2 : has2 a (d :: e :: rest) = false := has2_tail a c _ h
    rw [h1]
    simp only [Bool.false_and, Bool.false_or]
    exact has3_eq_false_of_has2 a (d :: e :: rest) h2

/-- The planner cleanup leaves no doubled and hence no tripled `#`. -/
theorem cleanPlan_no_hash_marks (s : List Char) :
    has2 '#' (cleanPlan s) = false ∧ has3 '#' (cleanPlan s) = false := by
  have h2 : has2 '#' (cleanPlan s) = false :=
    has2_stripL '#' _ (has2_remove2 '#' _)
  exact ⟨h2, has3_eq_false_of_has2 '#' _ h2⟩

/-! Claim theorems. -/

/-- C5: the PLAN state is entered iff the decide step's AI message carries at
least one tool invocation request (`route_after_agent` returns `planner` iff
the last message has tool calls); `generate_plan` returns an absent plan when
the pending invocation list is empty; and a direct reply makes the graph
reach END in one step with the plan still absent — the planner node is never
entered (the result does not depend on `plannerLLM`). -/
theorem c5_plan_iff_tool_calls
    (plannerLLM : List Char → Option (List Char) → List Char)
    (messages : List Msg)
    (llm : List Msg → Except (List Char) AIResp)
    (hist : List Msg) (resp : AIResp) :
    (route_after_agent messages = str "planner" ↔ lastHasToolCalls messages = true)
    ∧ (lastHasToolCalls messages = false → generate_plan plannerLLM messages = none)
    ∧ (llm hist = .ok resp → resp.tool_calls = [] →
        runFromAgent llm plannerLLM ⟨hist, none⟩ =
          .ok ⟨hist ++ [Msg.ai resp.content []], none⟩) := by
  refine ⟨?_, ?_, ?_⟩
  · unfold route_after_agent
    by_cases h : lastHasToolCalls messages = true
    · rw [if_pos h]
      simp [h]
    · rw [if_neg h]
      constructor
      · intro he
        exact absurd he (by decide)
      · intro ht
        exact absurd ht h
  · intro h
    unfold generate_plan
    have hl : lastToolCalls messages = [] := by
      unfold lastHasToolCalls at h
      cases hl : lastToolCalls messages with
      | nil => rfl
      | cons x t => rw [hl] at h; simp at h
    rw [hl]
  · intro hllm htc
    unfold runFromAgent
    rw [hllm]
    simp only
    rw [lastHasToolCalls_concat, htc]
    simp

/-- C5 witness: a direct reply routes to `end`, yields no plan, and reaches
END in one step. -/
theorem c5_witness :
    (route_after_agent [Msg.ai (str "hello") []] = str "planner"
      ↔ lastHasToolCalls [Msg.ai (str "hello") []] = true)
    ∧ generate_plan wPlanner [Msg.ai (str "hello") []] = none
    ∧ runFromAgent (fun _ => .ok ⟨str "hi", []⟩) wPlanner ⟨[Msg.human (str "hey")], none⟩ =
        .ok ⟨[Msg.human (str "hey"), Msg.ai (str "hi") []], none⟩ :=
  ⟨(c5_plan_iff_tool_calls wPlanner [Msg.ai (str "hello") []]
      (fun _ => .ok ⟨str "hi", []⟩) [Msg.human (str "hey")] ⟨str "hi", []⟩).1,
   (c5_plan_iff_tool_calls wPlanner [Msg.ai (str "hello") []]
      (fun _ => .ok ⟨str "hi", []⟩) [Msg.human (str "hey")] ⟨str "hi", []⟩).2.1 (by decide),
   (c5_plan_iff_tool_calls wPlanner [Msg.ai (str "hello") []]
      (fun _ => .ok ⟨str "hi", []⟩) [Msg.human (str "hey")] ⟨str "hi", []⟩).2.2 rfl rfl⟩

/-- C6 counterexample: the sequential replacements can stitch together a new
`**` marker — the model output `*##*` passes through `replace('**','')` and
`replace('###','')` unchanged and `replace('##','')` turns it into `**`, so
the Planner returns a plan text containing a literal `**` sequence. -/
theorem c6_counterexample :
    generate_plan evilPlanner [Msg.human (str "hi"), Msg.ai [] [wToolCall]] =
      some (str "**")
    ∧ has2 '*' (str "**") = true := by
  constructor
  · rfl
  · decide

/-- C6 (amended): every plan text the Planner returns is free of literal
`##` (and hence `###`) sequences, because `##` is the last pattern removed;
freedom from `**` does not hold (removals of `#` patterns can stitch a new
`**`), and tool-name mentions are constrained only by the prompt, with no
post-generation validation. -/
theorem c6_amended_no_hash_marks
    (plannerLLM : List Char → Option (List Char) → List Char)
    (messages : List Msg) (plan : List Char)
    (h : generate_plan plannerLLM messages = some plan) :
    has2 '#' plan = false ∧ has3 '#' plan = false := by
  unfold generate_plan at h
  cases hl : lastToolCalls messages with
  | nil => rw [hl] at h; exact absurd h (by simp)
  | cons x t =>
    rw [hl] at h
    simp only [Option.some.injEq] at h
    rw [← h]
    exact cleanPlan_no_hash_marks _

/-- C6 amended witness: the returned plan in the adversarial scenario indeed
holds no `##` or `###`. -/
theorem c6_amended_witness :
    generate_plan evilPlanner [Msg.ai (str "q") [wToolCall]] = some (str "**")
    ∧ has2 '#' (str "**") = false ∧ has3 '#' (str "**") = false :=
  ⟨by rfl,
   c6_amended_no_hash_marks evilPlanner [Msg.ai (str "q") [wToolCall]] (str "**") (by rfl)⟩

/-- C7: with an initialized MCP session (which holds on every execution path,
since tools are built only after `connect()` sets the session), `tool_func`
always returns a string and never raises: the first content item's text on
success, the `No response from tool.` sentinel when the call yields no
content, and the `Error executing tool: ⟨message⟩` payload when the
underlying call raises. -/
theorem c7_tool_func_total_string (sessionOk : Bool)
    (callTool : List (List Char × List Char) → CallOutcome)
    (args : List (List Char × Option (List Char)))
    (hs : sessionOk = true) :
    (∃ res, tool_func sessionOk callTool args = .ok res)
    ∧ (∀ m, callTool (filterArgs args) = .raised m →
        tool_func sessionOk callTool args = .ok (str "Error executing tool: " ++ m))
    ∧ (callTool (filterArgs args) = .success [] →
        tool_func sessionOk callTool args = .ok (str "No response from tool."))
    ∧ (∀ t ts, callTool (filterArgs args) = .success (t :: ts) →
        tool_func sessionOk callTool args = .ok t) := by
  subst hs
  unfold tool_func
  rw [if_neg (by simp)]
  refine ⟨?_, ?_, ?_, ?_⟩
  · cases h : callTool (filterArgs args) with
    | success content =>
      cases content with
      | nil => exact ⟨str "No response from tool.", rfl⟩
      | cons t ts => exact ⟨t, rfl⟩
    | raised m => exact ⟨str "Error executing tool: " ++ m, rfl⟩
  · intro m h
    rw [h]
  · intro h
    rw [h]
  · intro t ts h
    rw [h]

/-- C7 witness: a raising tool call is captured as the textual payload. -/
theorem c7_witness :
    (∃ res, tool_func true raisingCall dummyArgs = .ok res)
    ∧ tool_func true raisingCall dummyArgs =
        .ok (str "Error executing tool: " ++ str "boom") :=
  ⟨(c7_tool_func_total_string true raisingCall dummyArgs rfl).1,
   (c7_tool_func_total_string true raisingCall dummyArgs rfl).2.1 (str "boom") rfl⟩

/-- C8: `get_stock_price` normalizes the symbol by lower-casing and appending
the `.us` market suffix exactly when the symbol contains no dot, and returns
the error result whenever no data row is present or the close-price field
holds the `N/D` sentinel. -/
theorem c8_stock_normalization_and_errors
    (fetch : List Char → Option StockRow) (symbol : List Char) :
    (¬ '.' ∈ symbol → normalizeSymbol symbol = lowerL symbol ++ str ".us")
    ∧ ('.' ∈ symbol → normalizeSymbol symbol = lowerL symbol)
    ∧ (fetch (normalizeSymbol symbol) = none →
        get_stock_price fetch symbol =
          .err (str "No data found for symbol " ++ normalizeSymbol symbol))
    ∧ (∀ row, fetch (normalizeSymbol symbol) = some row → row.close = str "N/D" →
        get_stock_price fetch symbol =
          .err (str "No data found for symbol " ++ normalizeSymbol symbol)) := by
  refine ⟨?_, ?_, ?_, ?_⟩
  · intro h
    unfold normalizeSymbol
    rw [if_neg]
    rw [mem_dot_lowerL]
    exact h
  · intro h
    unfold normalizeSymbol
    rw [if_pos]
    rw [mem_dot_lowerL]
    exact h
  · intro h
    simp only [get_stock_price]
    rw [h]
  · intro row h hnd
    simp only [get_stock_price]
    rw [h]
    simp only
    rw [if_pos hnd]

/-- C8 witness: `msft` is normalized to `msft.us` and an `N/D` close maps to
the error result. -/
theorem c8_witness :
    normalizeSymbol (str "msft") = lowerL (str "msft") ++ str ".us"
    ∧ get_stock_price fetchND (str "msft") =
        .err (str "No data found for symbol " ++ normalizeSymbol (str "msft")) :=
  ⟨(c8_stock_normalization_and_errors fetchND (str "msft")).1 (by decide),
   (c8_stock_normalization_and_errors fetchND (str "msft")).2.2.2
     ⟨str "N/D", str "N/D", str "N/D", str "N/D", str "N/D"⟩ (by decide) (by decide)⟩

/-- C10: every successful `get_stock_price` result carries the upper-cased
normalized symbol (suffix included) in its `symbol` field, not the caller's
original string. -/
theorem c10_symbol_field_uppercased
    (fetch : List Char → Option StockRow) (symbol : List Char) (row : StockRow)
    (hf : fetch (normalizeSymbol symbol) = some row)
    (hnd : ¬ row.close = str "N/D") :
    get_stock_price fetch symbol =
      .priceData (upperL (normalizeSymbol symbol))
        row.openP row.high row.low row.close row.volume := by
  simp only [get_stock_price]
  rw [hf]
  simp only
  rw [if_neg hnd]

/-- C10 witness: input `aapl` yields symbol field `AAPL.US`. -/
theorem c10_witness :
    get_stock_price fetch0 (str "aapl") =
      .priceData (str "AAPL.US") (str "255.1") (str "258.0") (str "253.0")
        (str "257.2") (str "1000")
    ∧ upperL (normalizeSymbol (str "aapl")) = str "AAPL.US" :=
  ⟨(c10_symbol_field_uppercased fetch0 (str "aapl") row0 (by decide) (by decide)).trans
     (by decide),
   by decide⟩

/-- C9: an empty or whitespace-only input line makes both session drivers
skip the turn: the history is returned unchanged, no Human message is
appended, and no model invocation occurs (the outcome is independent of the
model oracles, which are universally quantified). -/
theorem c9_blank_input_skips
    (llm : List Msg → Except (List Char) AIResp)
    (plannerLLM : List Char → Option (List Char) → List Char)
    (toolExec : ToolCall → List Char)
    (invoke : Nat → Except (List Char) (List Msg))
    (history : List Msg) (input approvalInput : List Char)
    (h : stripL input = []) :
    AgentCustom.runTurn llm plannerLLM toolExec history input approvalInput =
      .skipped history
    ∧ AiAgent.runTurn invoke history input = .skipped history := by
  constructor
  · simp [AgentCustom.runTurn, h]
    decide
  · simp [AiAgent.runTurn, h]
    decide

/-- C9 witness: a whitespace-only line is skipped by both drivers. -/
theorem c9_witness :
    stripL (str "   ") = []
    ∧ AgentCustom.runTurn wLlm wPlanner wTool h5 (str "   ") (str "yes") =
        .skipped h5
    ∧ AiAgent.runTurn invokeRetryOk h5 (str "   ") = .skipped h5 :=
  ⟨by decide,
   (c9_blank_input_skips wLlm wPlanner wTool invokeRetryOk h5 (str "   ") (str "yes")
     (by decide)).1,
   (c9_blank_input_skips wLlm wPlanner wTool invokeRetryOk h5 (str "   ") (str "yes")
     (by decide)).2⟩

/-- C1: when the stripped lower-cased approval response is anything other
than `yes`/`y`, the suspended turn executes no tool (the conclusion holds
for every tool executor and mentions none of its results), appends exactly
one synthetic AI acknowledgment to the history — in particular no
ToolMessage and no error payload — and the turn completes. -/
theorem c1_rejection_appends_ack
    (llm : List Msg → Except (List Char) AIResp)
    (plannerLLM : List Char → Option (List Char) → List Char)
    (toolExec : ToolCall → List Char)
    (history : List Msg) (input approvalInput : List Char) (s : GState)
    (hexit : lowerL (stripL input) ∉ exitWords)
    (hne : stripL input ≠ [])
    (hrun : runFromAgent llm plannerLLM
        ⟨trunc6 (history ++ [Msg.human (stripL input)]), none⟩ = .ok s)
    (htc : lastHasToolCalls s.messages = true)
    (hrej : lowerL (stripL approvalInput) ∉ yesWords) :
    AgentCustom.runTurn llm plannerLLM toolExec history input approvalInput =
      .completed (trunc6 (history ++ [Msg.human (stripL input)]) ++ [Msg.ai ackText []]) := by
  simp only [AgentCustom.runTurn]
  rw [if_neg hexit, if_neg hne]
  simp only [hrun]
  rw [if_pos htc, if_neg hrej]

/-- C1 witness: a rejected weather-tool turn completes with only the
acknowledgment appended. -/
theorem c1_witness :
    (lowerL (stripL (str "weather")) ∉ exitWords)
    ∧ (stripL (str "weather") ≠ [])
    ∧ (lowerL (stripL (str " NO ")) ∉ yesWords)
    ∧ AgentCustom.runTurn wLlm wPlanner wTool [Msg.system (str "sys")]
        (str "weather") (str " NO ") =
      .completed (trunc6 ([Msg.system (str "sys")] ++ [Msg.human (stripL (str "weather"))])
        ++ [Msg.ai ackText []]) :=
  ⟨by decide, by decide, by decide,
   c1_rejection_appends_ack wLlm wPlanner wTool [Msg.system (str "sys")]
     (str "weather") (str " NO ")
     ⟨[Msg.system (str "sys"), Msg.human (str "weather"), Msg.ai [] [wToolCall]],
      some (str "1. Fetch weather data for London using the get_weather MCP tool")⟩
     (by decide) (by decide) (by rfl) (by decide) (by decide)⟩

/-- C2 counterexample: with a model that requests a further tool call after
seeing the first tool result, an approved turn does not keep looping until a
direct reply — the graph suspends again and the driver merges an AI message
that still carries tool invocation requests as the turn's final answer. -/
theorem c2_counterexample :
    AgentCustom.runTurn wLlm2 wPlanner wTool [Msg.system (str "sys")]
        (str "weather") (str "yes")
      = .completed
          [Msg.system (str "sys"), Msg.human (str "weather"),
           Msg.ai [] [wToolCall], Msg.tool (str "20 C") 1, Msg.ai [] [wToolCall2]]
    ∧ lastHasToolCalls
        [Msg.system (str "sys"), Msg.human (str "weather"),
         Msg.ai [] [wToolCall], Msg.tool (str "20 C") 1, Msg.ai [] [wToolCall2]] = true := by
  constructor
  · rfl
  · decide

/-- C2 (amended): on approval the `tools` node appends one ToolMessage per
pending request in request order and transitions back to the agent node
(EXECUTE to DECIDE, the third conjunct); when that re-decide produces an AI
message with no tool invocation requests the graph reaches DONE, and exactly
that direct reply ends the merged (truncated) history; when the re-decide
requests further tools the graph suspends again and the driver merges that
suspended state without executing the new calls. -/
theorem c2_amended_approved_execution
    (llm : List Msg → Except (List Char) AIResp)
    (plannerLLM : List Char → Option (List Char) → List Char)
    (toolExec : ToolCall → List Char)
    (history : List Msg) (input approvalInput : List Char) (s s2 : GState)
    (hexit : lowerL (stripL input) ∉ exitWords)
    (hne : stripL input ≠ [])
    (hrun : runFromAgent llm plannerLLM
        ⟨trunc6 (history ++ [Msg.human (stripL input)]), none⟩ = .ok s)
    (htc : lastHasToolCalls s.messages = true)
    (hyes : lowerL (stripL approvalInput) ∈ yesWords)
    (hres : resumeFromTools llm plannerLLM toolExec s = .ok s2)
    (hdone : lastHasToolCalls s2.messages = false) :
    AgentCustom.runTurn llm plannerLLM toolExec history input approvalInput =
      .completed (trunc6 s2.messages)
    ∧ (∃ c, s2.messages.getLast? = some (Msg.ai c []))
    ∧ resumeFromTools llm plannerLLM toolExec s =
        runFromAgent llm plannerLLM
          ⟨s.messages ++ toolResults toolExec s.messages, s.todo_list⟩ := by
  refine ⟨?_, runFromAgent_done_last llm plannerLLM _ s2 hres hdone, rfl⟩
  simp only [AgentCustom.runTurn]
  rw [if_neg hexit, if_neg hne]
  simp only [hrun]
  rw [if_pos htc, if_pos hyes]
  simp only [hres]

/-- C2 amended witness: a single approved weather round executes the tool
and merges the direct reply. -/
theorem c2_amended_witness :
    (lowerL (stripL (str "yes")) ∈ yesWords)
    ∧ AgentCustom.runTurn wLlm wPlanner wTool [Msg.system (str "sys")]
        (str "weather") (str "yes") =
      .completed (trunc6
        [Msg.system (str "sys"), Msg.human (str "weather"), Msg.ai [] [wToolCall],
         Msg.tool (str "20 C") 1, Msg.ai (str "It is sunny in London") []]) :=
  ⟨by decide,
   (c2_amended_approved_execution wLlm wPlanner wTool [Msg.system (str "sys")]
     (str "weather") (str "yes")
     ⟨[Msg.system (str "sys"), Msg.human (str "weather"), Msg.ai [] [wToolCall]],
      some (str "1. Fetch weather data for London using the get_weather MCP tool")⟩
     ⟨[Msg.system (str "sys"), Msg.human (str "weather"), Msg.ai [] [wToolCall],
       Msg.tool (str "20 C") 1, Msg.ai (str "It is sunny in London") []],
      some (str "1. Fetch weather data for London using the get_weather MCP tool")⟩
     (by decide) (by decide) (by rfl) (by decide) (by decide) (by rfl)
     (by decide)).1⟩

/-- C3 counterexample: a rejected turn ends with 7 messages in the history
(the acknowledgment is appended after the cap was applied), and an approved
turn whose merged result exceeds the cap evicts the initial System message
without re-prepending it. -/
theorem c3_counterexample :
    (AgentCustom.outHistory
        (AgentCustom.runTurn wLlm wPlanner wTool h5 (str "weather") (str "no"))).length = 7
    ∧ Msg.system (str "You are a helpful AI assistant") ∉
        AgentCustom.outHistory
          (AgentCustom.runTurn wLlm wPlanner wTool h5 (str "weather") (str "yes")) := by
  constructor
  · rfl
  · decide

/-- C3 (amended): after any non-exit, non-skipped turn the history holds at
most 7 messages: the 6-message cap is applied before the model invocation
and after merging an invocation result, so those paths leave at most 6, but
the rejection path appends the acknowledgment after the cap (7 possible,
re-truncated only at the next turn); the second conjunct shows every
approved (or direct-reply) turn ends with at most 6. An evicted System
message is never re-prepended (see the counterexample). -/
theorem c3_amended_history_bounds
    (llm : List Msg → Except (List Char) AIResp)
    (plannerLLM : List Char → Option (List Char) → List Char)
    (toolExec : ToolCall → List Char)
    (history : List Msg) (input approvalInput : List Char)
    (hexit : lowerL (stripL input) ∉ exitWords)
    (hne : stripL input ≠ []) :
    (AgentCustom.outHistory
        (AgentCustom.runTurn llm plannerLLM toolExec history input approvalInput)).length ≤ 7
    ∧ (lowerL (stripL approvalInput) ∈ yesWords →
        (AgentCustom.outHistory
            (AgentCustom.runTurn llm plannerLLM toolExec history input
              approvalInput)).length ≤ 6) := by
  have hcap := trunc6_length_le (history ++ [Msg.human (stripL input)])
  simp only [AgentCustom.runTurn]
  rw [if_neg hexit, if_neg hne]
  cases hrun : runFromAgent llm plannerLLM
      ⟨trunc6 (history ++ [Msg.human (stripL input)]), none⟩ with
  | error e =>
    simp only [AgentCustom.outHistory]
    have hd : (trunc6 (history ++ [Msg.human (stripL input)])).dropLast.length ≤ 6 := by
      rw [List.length_dropLast]
      omega
    exact ⟨by omega, fun _ => hd⟩
  | ok s =>
    dsimp only
    by_cases htc : lastHasToolCalls s.messages = true
    · rw [if_pos htc]
      by_cases hap : lowerL (stripL approvalInput) ∈ yesWords
      · rw [if_pos hap]
        cases hres : resumeFromTools llm plannerLLM toolExec s with
        | error e =>
          simp only [AgentCustom.outHistory]
          have hd : (trunc6 (history ++ [Msg.human (stripL input)])).dropLast.length ≤ 6 := by
            rw [List.length_dropLast]
            omega
          exact ⟨by omega, fun _ => hd⟩
        | ok s2 =>
          simp only [AgentCustom.outHistory]
          have h6 := trunc6_length_le s2.messages
          exact ⟨by omega, fun _ => h6⟩
      · rw [if_neg hap]
        simp only [AgentCustom.outHistory]
        rw [List.length_append]
        refine ⟨by simp; omega, fun hy => absurd hy hap⟩
    · rw [if_neg htc]
      simp only [AgentCustom.outHistory]
      have h6 := trunc6_length_le s.messages
      exact ⟨by omega, fun _ => h6⟩

/-- C3 amended witness: a concrete rejected turn stays within the 7-message
bound. -/
theorem c3_amended_witness :
    (lowerL (stripL (str "weather")) ∉ exitWords)
    ∧ (stripL (str "weather") ≠ [])
    ∧ (AgentCustom.outHistory
        (AgentCustom.runTurn wLlm wPlanner wTool h5 (str "weather") (str "no"))).length ≤ 7 :=
  ⟨by decide, by decide,
   (c3_amended_history_bounds wLlm wPlanner wTool h5 (str "weather") (str "no")
     (by decide) (by decide)).1⟩

/-- C4 counterexample: in the ai-agent variant a turn whose model invocation
fails twice terminates the session loop (the crash escapes the loop) with
the just-appended Human message still in the history — it is not removed and
the loop does not continue; in the agent-custom variant a single failure is
surfaced at once with no retry (its handler pops the message and
continues). -/
theorem c4_counterexample :
    AiAgent.runTurn invokeFail h5 (str "hello")
      = .crashed (h5 ++ [Msg.human (str "hello")])
    ∧ AgentCustom.runTurn failLlm wPlanner wTool h5 (str "hello") (str "yes")
      = .errored (trunc6 (h5 ++ [Msg.human (str "hello")])).dropLast := by
  constructor
  · rfl
  · rfl

/-- C4 (amended): the ai-agent variant retries a failed graph invocation
exactly once and completes normally when the retry succeeds (first
conjunct); when the retry also fails, the exception escapes the session
loop, terminating it, and the just-appended Human message stays in the
history (second conjunct). The agent-custom variant never retries: any turn
failure is reported at once, the last-appended (Human) message is popped,
and the loop continues (third conjunct). -/
theorem c4_amended_retry_and_rollback :
    (∀ (invoke : Nat → Except (List Char) (List Msg)) (history : List Msg)
        (input e : List Char) (msgs : List Msg) (m : Msg),
      lowerL (stripL input) ∉ exitWords → stripL input ≠ [] →
      invoke 0 = .error e → invoke 1 = .ok msgs → msgs.getLast? = some m →
      AiAgent.runTurn invoke history input =
        .completed (history ++ [Msg.human (stripL input)] ++ [m]))
    ∧ (∀ (invoke : Nat → Except (List Char) (List Msg)) (history : List Msg)
        (input e0 e1 : List Char),
      lowerL (stripL input) ∉ exitWords → stripL input ≠ [] →
      invoke 0 = .error e0 → invoke 1 = .error e1 →
      AiAgent.runTurn invoke history input =
        .crashed (history ++ [Msg.human (stripL input)]))
    ∧ (∀ (llm : List Msg → Except (List Char) AIResp)
        (plannerLLM : List Char → Option (List Char) → List Char)
        (toolExec : ToolCall → List Char)
        (history : List Msg) (input approvalInput e : List Char),
      lowerL (stripL input) ∉ exitWords → stripL input ≠ [] →
      runFromAgent llm plannerLLM
        ⟨trunc6 (history ++ [Msg.human (stripL input)]), none⟩ = .error e →
      AgentCustom.runTurn llm plannerLLM toolExec history input approvalInput =
        .errored (trunc6 (history ++ [Msg.human (stripL input)])).dropLast) := by
  refine ⟨?_, ?_, ?_⟩
  · intro invoke history input e msgs m hexit hne h0 h1 hm
    simp only [AiAgent.runTurn]
    rw [if_neg hexit, if_neg hne]
    simp only [h0, h1, hm]
  · intro invoke history input e0 e1 hexit hne h0 h1
    simp only [AiAgent.runTurn]
    rw [if_neg hexit, if_neg hne]
    simp only [h0, h1]
  · intro llm plannerLLM toolExec history input approvalInput e hexit hne herr
    simp only [AgentCustom.runTurn]
    rw [if_neg hexit, if_neg hne]
    simp only [herr]

/-- C4 amended witness: the retry recovers a single transient failure, a
double failure crashes, and the agent-custom variant pops and continues. -/
theorem c4_amended_witness :
    AiAgent.runTurn invokeRetryOk h5 (str "hello")
      = .completed (h5 ++ [Msg.human (stripL (str "hello"))] ++ [Msg.ai (str "recovered") []])
    ∧ AiAgent.runTurn invokeFail h5 (str "hi")
      = .crashed (h5 ++ [Msg.human (stripL (str "hi"))])
    ∧ AgentCustom.runTurn failLlm wPlanner wTool h5 (str "hi") (str "yes")
      = .errored (trunc6 (h5 ++ [Msg.human (stripL (str "hi"))])).dropLast :=
  ⟨c4_amended_retry_and_rollback.1 invokeRetryOk h5 (str "hello") (str "boom")
     [Msg.human (str "hi"), Msg.ai (str "recovered") []] (Msg.ai (str "recovered") [])
     (by decide) (by decide) (by rfl) (by rfl) (by rfl),
   c4_amended_retry_and_rollback.2.1 invokeFail h5 (str "hi") (str "boom") (str "boom")
     (by decide) (by decide) (by rfl) (by rfl),
   c4_amended_retry_and_rollback.2.2 failLlm wPlanner wTool h5 (str "hi") (str "yes")
     (str "model timeout") (by decide) (by decide) (by rfl)⟩
